import Mathlib

/-!
Verification development for the SIMV vehicle-monitoring core
(src/src/counter.py, src/src/analytics.py, src/src/color_classifier.py).

The Python modules are shallowly embedded: pure float arithmetic is modelled
over the exact rationals, the numpy square root in the speed calculation is
modelled over the reals, Python dicts become association lists (insertion
ordered), and Python sets become lists queried by membership.
-/

/-- Python int() applied to an exact rational: truncation toward zero. -/
def pyInt (q : ℚ) : ℤ := if 0 ≤ q then ⌊q⌋ else ⌈q⌉

/-- Round-half-up rounding on rationals, used for the HSV conversion model. -/
def rnd (q : ℚ) : ℤ := ⌊q + 1 / 2⌋

/-- Association-list lookup, the model of Python dict access. -/
def alookup {κ α : Type} [DecidableEq κ] : List (κ × α) → κ → Option α
  | [], _ => none
  | (k, v) :: rest, k2 => if k = k2 then some v else alookup rest k2

/-- Association-list update or append, the model of Python dict assignment
(insertion order preserved, new keys appended at the end). -/
def upsert {κ α : Type} [DecidableEq κ] (k : κ) (v : α) : List (κ × α) → List (κ × α)
  | [] => [(k, v)]
  | (k2, v2) :: rest => if k2 = k then (k, v) :: rest else (k2, v2) :: upsert k v rest

/-- Association-list update through a function, with a defaultdict-style
default supplied for absent keys. -/
def upsertWith {κ α : Type} [DecidableEq κ] (k : κ) (f : α → α) (d : α) :
    List (κ × α) → List (κ × α)
  | [] => [(k, f d)]
  | (k2, v2) :: rest => if k2 = k then (k2, f v2) :: rest else (k2, v2) :: upsertWith k f d rest

/-- Embeds the VehicleRecord dataclass of src/src/counter.py. -/
structure VehicleRecord where
  track_id : ℤ
  direction : String
  color : String
  vehicle_type : String
  timestamp : ℚ
  deriving DecidableEq

/-- Embeds the CountingStats dataclass of src/src/counter.py.  The defaultdict
of per-color / per-type counters becomes an association list whose values are
(entrada, saida) pairs. -/
structure CountingStats where
  total_entrada : Nat
  total_saida : Nat
  por_cor : List (String × (Nat × Nat))
  por_tipo : List (String × (Nat × Nat))
  registros : List VehicleRecord
  deriving DecidableEq

/-- The mutable attributes of a VehicleCounter instance (src/src/counter.py). -/
structure CounterState where
  frame_height : ℤ
  line_y : ℤ
  zone_margin : ℤ
  counted_vehicles : List ℤ
  position_history : List (ℤ × List ℚ)
  stats : CountingStats
  deriving DecidableEq

/-- One element of the tracked_vehicles argument of VehicleCounter.update: a
dict with a bbox, an optional class_name (dict .get default applied at use
site) and a track_id (the .get default -1 is folded into the field). -/
structure TrackedVehicle where
  track_id : ℤ
  bbox : ℚ × ℚ × ℚ × ℚ
  class_name : Option String

namespace VehicleCounter

/-- Embeds VehicleCounter.__init__.  Python int() truncation of the float
products frame_height * line_position and frame_height * 0.05 is modelled by
pyInt over exact rationals.  The source performs no validation of either
argument. -/
def init (frame_height : ℤ) (line_position : ℚ) : CounterState :=
  { frame_height := frame_height
    line_y := pyInt ((frame_height : ℚ) * line_position)
    zone_margin := pyInt ((frame_height : ℚ) * (5 / 100))
    counted_vehicles := []
    position_history := []
    stats := { total_entrada := 0, total_saida := 0, por_cor := [], por_tipo := [],
               registros := [] } }

/-- Embeds VehicleCounter._crossed_line: the track is in the counting zone iff
the distance from the line is strictly below the zone margin. -/
def crossed_line (st : CounterState) (current_y : ℚ) : Bool :=
  decide (|current_y - (st.line_y : ℚ)| < (st.zone_margin : ℚ))

/-- The half-split mean difference computed inside VehicleCounter._get_direction:
mean of the second half of the history minus mean of the first half, the split
index being the integer floor of half the length. -/
def halfSplitMovement (positions : List ℚ) : ℚ :=
  let start_positions := positions.take (positions.length / 2)
  let end_positions := positions.drop (positions.length / 2)
  end_positions.sum / (end_positions.length : ℚ) -
    start_positions.sum / (start_positions.length : ℚ)

/-- Embeds the body of VehicleCounter._get_direction over an explicit position
history list. -/
def get_direction_of (positions : List ℚ) : Option String :=
  if positions.length < 5 then none
  else
    let movement := halfSplitMovement positions
    if 20 < movement then some "entrada"
    else if movement < -20 then some "saida"
    else none

/-- Embeds VehicleCounter._get_direction, reading the history map of the
counter state. -/
def get_direction (st : CounterState) (track_id : ℤ) : Option String :=
  get_direction_of ((alookup st.position_history track_id).getD [])

/-- The per-direction increment applied to one (entrada, saida) counter pair
by stats.por_cor[color][direction] += 1 and its por_tipo twin. -/
def bump (direction : String) (p : Nat × Nat) : Nat × Nat :=
  if direction = "entrada" then (p.1 + 1, p.2) else (p.1, p.2 + 1)

/-- The history-maintenance prefix of the loop body of VehicleCounter.update:
append the vertical center to the position history of the track and keep only
the last 30 samples. -/
def noteHistory (st : CounterState) (track_id : ℤ) (center_y : ℚ) : CounterState :=
  let hist0 := (alookup st.position_history track_id).getD []
  let hist1 := hist0 ++ [center_y]
  let hist := if 30 < hist1.length then hist1.drop (hist1.length - 30) else hist1
  { st with position_history := upsert track_id hist st.position_history }

/-- The counting block of VehicleCounter.update: mark the track as counted,
append the record, and update the aggregate statistics. -/
def countTrack (st : CounterState) (track_id : ℤ)
    (direction color vehicle_type : String) (timestamp : ℚ) : CounterState :=
  let newRecord : VehicleRecord :=
    { track_id := track_id, direction := direction, color := color,
      vehicle_type := vehicle_type, timestamp := timestamp }
  let s0 := st.stats
  { st with
    counted_vehicles := track_id :: st.counted_vehicles
    stats := { total_entrada := if direction = "entrada" then s0.total_entrada + 1
                                else s0.total_entrada
               total_saida := if direction = "entrada" then s0.total_saida
                              else s0.total_saida + 1
               por_cor := upsertWith color (bump direction) (0, 0) s0.por_cor
               por_tipo := upsertWith vehicle_type (bump direction) (0, 0) s0.por_tipo
               registros := s0.registros ++ [newRecord] } }

/-- The body of the for-loop of VehicleCounter.update, processing one tracked
vehicle against the accumulated (state, newly_counted) pair. -/
def stepVehicle (colors : List (ℤ × String)) (timestamp : ℚ)
    (acc : CounterState × List (ℤ × String)) (vehicle : TrackedVehicle) :
    CounterState × List (ℤ × String) :=
  if vehicle.track_id < 0 then acc
  else
    let center_y := (vehicle.bbox.2.1 + vehicle.bbox.2.2.2) / 2
    let st1 := noteHistory acc.1 vehicle.track_id center_y
    if vehicle.track_id ∈ st1.counted_vehicles then (st1, acc.2)
    else if crossed_line st1 center_y then
      match get_direction st1 vehicle.track_id with
      | none => (st1, acc.2)
      | some direction =>
        (countTrack st1 vehicle.track_id direction
          ((alookup colors vehicle.track_id).getD "indefinido")
          (vehicle.class_name.getD "car") timestamp,
         acc.2 ++ [(vehicle.track_id, direction)])
    else (st1, acc.2)

/-- Embeds VehicleCounter.update: fold the loop body over the tracked vehicles,
returning the new state together with the newly_counted list. -/
def update (st : CounterState) (tracked_vehicles : List TrackedVehicle)
    (colors : List (ℤ × String)) (timestamp : ℚ) :
    CounterState × List (ℤ × String) :=
  tracked_vehicles.foldl (stepVehicle colors timestamp) (st, [])

/-- The arguments of one call to VehicleCounter.update. -/
structure UpdateCall where
  vehicles : List TrackedVehicle
  colors : List (ℤ × String)
  timestamp : ℚ

/-- A whole run: a sequence of update calls against one counter instance,
accumulating every emitted (track_id, direction) pair. -/
def runUpdates (st : CounterState) (calls : List UpdateCall) :
    CounterState × List (ℤ × String) :=
  calls.foldl (fun acc c =>
    let r := update acc.1 c.vehicles c.colors c.timestamp
    (r.1, acc.2 ++ r.2)) (st, [])

/-- The (track_id, direction) projection of the records list. -/
def recPairs (st : CounterState) : List (ℤ × String) :=
  st.stats.registros.map (fun r => (r.track_id, r.direction))

/-- The counting invariant of a VehicleCounter instance: totals add up to the
record count, record track ids are pairwise distinct, and every recorded track
id is in the counted set. -/
def Inv (st : CounterState) : Prop :=
  st.stats.total_entrada + st.stats.total_saida = st.stats.registros.length
  ∧ (st.stats.registros.map VehicleRecord.track_id).Nodup
  ∧ ∀ r ∈ st.stats.registros, r.track_id ∈ st.counted_vehicles

@[simp] theorem noteHistory_counted (st : CounterState) (tid : ℤ) (cy : ℚ) :
    (noteHistory st tid cy).counted_vehicles = st.counted_vehicles := rfl

@[simp] theorem noteHistory_stats (st : CounterState) (tid : ℤ) (cy : ℚ) :
    (noteHistory st tid cy).stats = st.stats := rfl

theorem Inv.noteHistory {st : CounterState} (h : Inv st) (tid : ℤ) (cy : ℚ) :
    Inv (VehicleCounter.noteHistory st tid cy) := by
  obtain ⟨h1, h2, h3⟩ := h
  exact ⟨h1, h2, fun r hr => h3 r hr⟩

theorem Inv.countTrack {st : CounterState} (h : Inv st) {tid : ℤ}
    (hnot : tid ∉ st.counted_vehicles) (direction color vehicle_type : String)
    (ts : ℚ) : Inv (VehicleCounter.countTrack st tid direction color vehicle_type ts) := by
  obtain ⟨h1, h2, h3⟩ := h
  refine ⟨?_, ?_, ?_⟩
  · simp only [VehicleCounter.countTrack]
    by_cases hd : direction = "entrada" <;>
      simp [hd, List.length_append, h1] <;> omega
  · simp only [VehicleCounter.countTrack, List.map_append, List.map_cons, List.map_nil]
    rw [List.nodup_append]
    refine ⟨h2, List.nodup_singleton _, ?_⟩
    intro a ha hb
    simp only [List.mem_singleton] at hb
    subst hb
    simp only [List.mem_map] at ha
    obtain ⟨r, hr, hrid⟩ := ha
    exact hnot (hrid ▸ h3 r hr)
  · intro r hr
    simp only [VehicleCounter.countTrack, List.mem_append, List.mem_singleton] at hr
    rcases hr with hr | hr
    · exact List.mem_cons_of_mem _ (h3 r hr)
    · subst hr
      exact List.mem_cons_self _ _

theorem recPairs_countTrack (st : CounterState) (tid : ℤ)
    (direction color vehicle_type : String) (ts : ℚ) :
    recPairs (countTrack st tid direction color vehicle_type ts) =
      recPairs st ++ [(tid, direction)] := by
  simp [recPairs, countTrack]

theorem recPairs_noteHistory (st : CounterState) (tid : ℤ) (cy : ℚ) :
    recPairs (noteHistory st tid cy) = recPairs st := rfl

theorem stepVehicle_spec (colors : List (ℤ × String)) (ts : ℚ)
    (v : TrackedVehicle) (st : CounterState) (newly : List (ℤ × String))
    (h : Inv st) :
    Inv (stepVehicle colors ts (st, newly) v).1 ∧
    ∃ d, (stepVehicle colors ts (st, newly) v).2 = newly ++ d ∧
      recPairs (stepVehicle colors ts (st, newly) v).1 = recPairs st ++ d := by
  unfold stepVehicle
  by_cases hneg : v.track_id < 0
  · simp only [if_pos hneg]
    exact ⟨h, [], by simp, by simp⟩
  · simp only [if_neg hneg]
    set cy := (v.bbox.2.1 + v.bbox.2.2.2) / 2 with hcy
    set st1 := noteHistory (st, newly).1 v.track_id cy with hst1
    have hInv1 : Inv st1 := h.noteHistory v.track_id cy
    have hrp1 : recPairs st1 = recPairs st := recPairs_noteHistory _ _ _
    by_cases hmem : v.track_id ∈ st1.counted_vehicles
    · simp only [if_pos hmem]
      exact ⟨hInv1, [], by simp, by simp [hrp1]⟩
    · simp only [if_neg hmem]
      by_cases hzone : crossed_line st1 cy
      · simp only [hzone, if_true]
        cases hdir : get_direction st1 v.track_id with
        | none => exact ⟨hInv1, [], by simp, by simp [hrp1]⟩
        | some direction =>
          have hnot : v.track_id ∉ st1.counted_vehicles := hmem
          refine ⟨hInv1.countTrack hnot _ _ _ _, [(v.track_id, direction)], rfl, ?_⟩
          rw [recPairs_countTrack, hrp1]
      · simp only [hzone, if_false]
        exact ⟨hInv1, [], by simp, by simp [hrp1]⟩

theorem foldl_stepVehicle_spec (colors : List (ℤ × String)) (ts : ℚ) :
    ∀ (vs : List TrackedVehicle) (st : CounterState) (newly : List (ℤ × String)),
      Inv st →
      Inv ((vs.foldl (stepVehicle colors ts) (st, newly)).1) ∧
      ∃ d, (vs.foldl (stepVehicle colors ts) (st, newly)).2 = newly ++ d ∧
        recPairs ((vs.foldl (stepVehicle colors ts) (st, newly)).1) = recPairs st ++ d
  | [], st, newly, h => ⟨h, [], by simp, by simp⟩
  | v :: vs, st, newly, h => by
    have h1 := stepVehicle_spec colors ts v st newly h
    obtain ⟨hInv1, d1, hn1, hr1⟩ := h1
    have h2 := foldl_stepVehicle_spec colors ts vs
      (stepVehicle colors ts (st, newly) v).1 (stepVehicle colors ts (st, newly) v).2 hInv1
    obtain ⟨hInv2, d2, hn2, hr2⟩ := h2
    have hfold : (v :: vs).foldl (stepVehicle colors ts) (st, newly)
        = vs.foldl (stepVehicle colors ts) (stepVehicle colors ts (st, newly) v) := by
      simp [List.foldl_cons]
    refine ⟨by rw [hfold]; exact hInv2, d1 ++ d2, ?_, ?_⟩
    · rw [hfold, hn2, hn1, List.append_assoc]
    · rw [hfold, hr2, hr1, List.append_assoc]

theorem update_spec (st : CounterState) (vs : List TrackedVehicle)
    (colors : List (ℤ × String)) (ts : ℚ) (h : Inv st) :
    Inv (update st vs colors ts).1 ∧
    recPairs (update st vs colors ts).1 = recPairs st ++ (update st vs colors ts).2 := by
  obtain ⟨hInv, d, hn, hr⟩ := foldl_stepVehicle_spec colors ts vs st [] h
  refine ⟨hInv, ?_⟩
  have : (update st vs colors ts).2 = d := by
    simpa [update] using hn
  rw [this]
  simpa [update] using hr

theorem runUpdates_spec :
    ∀ (calls : List UpdateCall) (st : CounterState) (acc : List (ℤ × String)),
      Inv st →
      Inv ((calls.foldl (fun a c => let r := update a.1 c.vehicles c.colors c.timestamp
          (r.1, a.2 ++ r.2)) (st, acc)).1) ∧
      ∃ d, (calls.foldl (fun a c => let r := update a.1 c.vehicles c.colors c.timestamp
          (r.1, a.2 ++ r.2)) (st, acc)).2 = acc ++ d ∧
        recPairs ((calls.foldl (fun a c => let r := update a.1 c.vehicles c.colors c.timestamp
          (r.1, a.2 ++ r.2)) (st, acc)).1) = recPairs st ++ d
  | [], st, acc, h => ⟨h, [], by simp, by simp⟩
  | c :: calls, st, acc, h => by
    obtain ⟨hInv1, hr1⟩ := update_spec st c.vehicles c.colors c.timestamp h
    obtain ⟨hInv2, d2, hn2, hr2⟩ := runUpdates_spec calls
      (update st c.vehicles c.colors c.timestamp).1
      (acc ++ (update st c.vehicles c.colors c.timestamp).2) hInv1
    refine ⟨hInv2, (update st c.vehicles c.colors c.timestamp).2 ++ d2, ?_, ?_⟩
    · rw [List.foldl_cons]
      simpa [List.append_assoc] using hn2
    · rw [List.foldl_cons]
      simpa [hr1, List.append_assoc] using hr2

end VehicleCounter

/-- C1: over any sequence of update calls against one VehicleCounter instance,
no track id appears in more than one emitted (track_id, direction) pair,
total_entrada + total_saida equals the number of emitted pairs, which equals
the length of the records list, and each track id appears in at most one
VehicleRecord. -/
theorem C1_at_most_once_counting (frame_height : ℤ) (line_position : ℚ)
    (calls : List VehicleCounter.UpdateCall) :
    ((VehicleCounter.runUpdates (VehicleCounter.init frame_height line_position)
        calls).2.map Prod.fst).Nodup
    ∧ (VehicleCounter.runUpdates (VehicleCounter.init frame_height line_position)
        calls).1.stats.total_entrada
      + (VehicleCounter.runUpdates (VehicleCounter.init frame_height line_position)
        calls).1.stats.total_saida
      = (VehicleCounter.runUpdates (VehicleCounter.init frame_height line_position)
        calls).2.length
    ∧ (VehicleCounter.runUpdates (VehicleCounter.init frame_height line_position)
        calls).2.length
      = (VehicleCounter.runUpdates (VehicleCounter.init frame_height line_position)
        calls).1.stats.registros.length
    ∧ ((VehicleCounter.runUpdates (VehicleCounter.init frame_height line_position)
        calls).1.stats.registros.map VehicleRecord.track_id).Nodup := by
  have hInit : VehicleCounter.Inv (VehicleCounter.init frame_height line_position) :=
    ⟨rfl, List.nodup_nil, by intro r hr; simp [VehicleCounter.init] at hr⟩
  obtain ⟨hInv, d, hn, hr⟩ :=
    VehicleCounter.runUpdates_spec calls (VehicleCounter.init frame_height line_position)
      [] hInit
  have hrinit : VehicleCounter.recPairs (VehicleCounter.init frame_height line_position)
      = [] := rfl
  have hrun : (VehicleCounter.runUpdates (VehicleCounter.init frame_height line_position)
      calls).2 = VehicleCounter.recPairs
        (VehicleCounter.runUpdates (VehicleCounter.init frame_height line_position)
          calls).1 := by
    simp only [VehicleCounter.runUpdates]
    rw [hr, hn, hrinit]
  obtain ⟨hTot, hNodup, hSub⟩ : VehicleCounter.Inv
      (VehicleCounter.runUpdates (VehicleCounter.init frame_height line_position)
        calls).1 := by
    simpa [VehicleCounter.runUpdates] using hInv
  refine ⟨?_, ?_, ?_, hNodup⟩
  · rw [hrun]
    simpa [VehicleCounter.recPairs, List.map_map, Function.comp] using hNodup
  · rw [hrun]
    simpa [VehicleCounter.recPairs] using hTot
  · rw [hrun]
    simp [VehicleCounter.recPairs]

/-- C2 (amended): for nonnegative construction inputs the counter derives
line_y and zone_margin by Python int() truncation (the floor, for nonnegative
products) of frame_height * line_position and frame_height * 0.05 - not by
rounding to nearest - and a track is in the counting zone iff
|center_y - line_y| < zone_margin with strict inequality. -/
theorem C2_zone_geometry (frame_height : ℤ) (line_position : ℚ) (center_y : ℚ)
    (hh : 0 ≤ frame_height) (hp : 0 ≤ line_position) :
    (VehicleCounter.init frame_height line_position).line_y
        = ⌊(frame_height : ℚ) * line_position⌋
    ∧ (VehicleCounter.init frame_height line_position).zone_margin
        = ⌊(frame_height : ℚ) * (5 / 100)⌋
    ∧ (VehicleCounter.crossed_line (VehicleCounter.init frame_height line_position)
          center_y = true
        ↔ |center_y - ((VehicleCounter.init frame_height line_position).line_y : ℚ)|
            < ((VehicleCounter.init frame_height line_position).zone_margin : ℚ)) := by
  have h1 : (0 : ℚ) ≤ (frame_height : ℚ) * line_position :=
    mul_nonneg (by exact_mod_cast hh) hp
  have h2 : (0 : ℚ) ≤ (frame_height : ℚ) * (5 / 100) :=
    mul_nonneg (by exact_mod_cast hh) (by norm_num)
  refine ⟨?_, ?_, ?_⟩
  · simp [VehicleCounter.init, pyInt, h1]
  · simp [VehicleCounter.init, pyInt, h2]
  · simp [VehicleCounter.crossed_line]

/-- Witness for C2 at the end-to-end scenario of the spec: frame height 600,
line position one half, center 310. -/
theorem C2_zone_geometry_witness :
    (0 : ℤ) ≤ 600 ∧ (0 : ℚ) ≤ 1 / 2
    ∧ ((VehicleCounter.init 600 (1 / 2)).line_y = ⌊(600 : ℚ) * (1 / 2)⌋
      ∧ (VehicleCounter.init 600 (1 / 2)).zone_margin = ⌊(600 : ℚ) * (5 / 100)⌋
      ∧ (VehicleCounter.crossed_line (VehicleCounter.init 600 (1 / 2)) 310 = true
        ↔ |(310 : ℚ) - ((VehicleCounter.init 600 (1 / 2)).line_y : ℚ)|
            < ((VehicleCounter.init 600 (1 / 2)).zone_margin : ℚ))) :=
  ⟨by decide, by norm_num, C2_zone_geometry 600 (1 / 2) 310 (by decide) (by norm_num)⟩

/-- Counterexample for C2 as stated: at frame height 30 the code derives
zone_margin = int(1.5) = 1, while rounding 30 * 0.05 to the nearest integer
gives 2. -/
theorem C2_round_counterexample :
    (VehicleCounter.init 30 (1 / 2)).zone_margin = 1
    ∧ round ((30 : ℚ) * (5 / 100)) = 2
    ∧ (VehicleCounter.init 30 (1 / 2)).zone_margin ≠ round ((30 : ℚ) * (5 / 100)) := by
  have hz : (VehicleCounter.init 30 (1 / 2)).zone_margin = 1 := by
    norm_num [VehicleCounter.init, pyInt]
  have hr : round ((30 : ℚ) * (5 / 100)) = 2 := by
    rw [round_eq]
    norm_num
  refine ⟨hz, hr, ?_⟩
  rw [hz, hr]
  decide

/-- Modelled from the spec: the validating constructor that the error-handling
section demands (reject an out-of-range line position or a non-positive frame
height at construction).  No such validation exists anywhere in
src/src/counter.py; this definition exists only to be compared with the
source constructor. -/
def initChecked (frame_height : ℤ) (line_position : ℚ) : Option CounterState :=
  if frame_height ≤ 0 then none
  else if line_position < 0 ∨ 1 < line_position then none
  else some (VehicleCounter.init frame_height line_position)

/-- Counterexample for C3 as stated: constructing with frame_height = 0 (a
non-positive height) is not rejected by the source constructor - it returns a
fully formed, degenerate state - whereas the spec-modelled validating
constructor rejects it. -/
theorem C3_reject_counterexample :
    VehicleCounter.init 0 (1 / 2) =
      { frame_height := 0, line_y := 0, zone_margin := 0, counted_vehicles := [],
        position_history := [],
        stats := { total_entrada := 0, total_saida := 0, por_cor := [], por_tipo := [],
                   registros := [] } }
    ∧ initChecked 0 (1 / 2) = none := by
  constructor
  · simp only [VehicleCounter.init, pyInt, CounterState.mk.injEq, CountingStats.mk.injEq]
    norm_num
  · rfl

/-- C3 (amended): the constructor performs no validation at all: every
frame_height and line_position is accepted, construction always succeeds, and
the supplied values are used as-is (no clamping) to derive the state. -/
theorem C3_no_validation (frame_height : ℤ) (line_position : ℚ) :
    (VehicleCounter.init frame_height line_position).frame_height = frame_height
    ∧ (VehicleCounter.init frame_height line_position).line_y
        = pyInt ((frame_height : ℚ) * line_position)
    ∧ (VehicleCounter.init frame_height line_position).zone_margin
        = pyInt ((frame_height : ℚ) * (5 / 100))
    ∧ (VehicleCounter.init frame_height line_position).counted_vehicles = []
    ∧ (VehicleCounter.init frame_height line_position).position_history = []
    ∧ (VehicleCounter.init frame_height line_position).stats.registros = [] :=
  ⟨rfl, rfl, rfl, rfl, rfl, rfl⟩

/-- C4: a direction is produced only for histories of at least 5 samples; with
the history split at the integer half, the mean of the second half minus the
mean of the first half yields entrada when strictly above 20, saida when
strictly below -20, and no direction on [-20, 20] including both boundaries. -/
theorem C4_direction_rule (positions : List ℚ) :
    (VehicleCounter.get_direction_of positions = some "entrada"
        ↔ 5 ≤ positions.length ∧ 20 < VehicleCounter.halfSplitMovement positions)
    ∧ (VehicleCounter.get_direction_of positions = some "saida"
        ↔ 5 ≤ positions.length ∧ VehicleCounter.halfSplitMovement positions < -20)
    ∧ (VehicleCounter.get_direction_of positions = none
        ↔ positions.length < 5
          ∨ (-20 ≤ VehicleCounter.halfSplitMovement positions
             ∧ VehicleCounter.halfSplitMovement positions ≤ 20)) := by
  have h0 : VehicleCounter.get_direction_of positions =
      if positions.length < 5 then none
      else if 20 < VehicleCounter.halfSplitMovement positions then some "entrada"
      else if VehicleCounter.halfSplitMovement positions < -20 then some "saida"
      else none := rfl
  rw [h0]
  split_ifs with h1 h2 h3
  all_goals refine ⟨?_, ?_, ?_⟩
  all_goals simp_all
  all_goals first | omega | linarith

/-- Witness for C4 at concrete histories: a half-split difference of exactly
21 yields entrada, exactly -21 yields saida, exactly 20 yields no direction,
and a 4-sample history yields no direction. -/
theorem C4_direction_rule_witness :
    VehicleCounter.get_direction_of [0, 0, 21, 21, 21] = some "entrada"
    ∧ VehicleCounter.get_direction_of [0, 0, -21, -21, -21] = some "saida"
    ∧ VehicleCounter.get_direction_of [0, 0, 20, 20, 20] = none
    ∧ VehicleCounter.get_direction_of [0, 0, 0, 0] = none :=
  ⟨(C4_direction_rule [0, 0, 21, 21, 21]).1.mpr
     ⟨by decide, by norm_num [VehicleCounter.halfSplitMovement]⟩,
   (C4_direction_rule [0, 0, -21, -21, -21]).2.1.mpr
     ⟨by decide, by norm_num [VehicleCounter.halfSplitMovement]⟩,
   (C4_direction_rule [0, 0, 20, 20, 20]).2.2.mpr
     (Or.inr ⟨by norm_num [VehicleCounter.halfSplitMovement],
              by norm_num [VehicleCounter.halfSplitMovement]⟩),
   (C4_direction_rule [0, 0, 0, 0]).2.2.mpr (Or.inl (by decide))⟩

/-- One BGR pixel in OpenCV channel order, each channel in 0..255. -/
structure BGR where
  b : ℤ
  g : ℤ
  r : ℤ

/-- A frame: a rows-by-cols raster of BGR pixels addressed (row, col). -/
structure Frame where
  rows : Nat
  cols : Nat
  px : Nat → Nat → BGR

/-- One inclusive HSV band (H_min, H_max, S_min, S_max, V_min, V_max), as in
the COLOR_RANGES table of src/src/color_classifier.py. -/
structure HSVRange where
  hmin : ℤ
  hmax : ℤ
  smin : ℤ
  smax : ℤ
  vmin : ℤ
  vmax : ℤ

/-- The COLOR_RANGES table of src/src/color_classifier.py, in its insertion
order (the dict iteration order Python max relies on for ties). -/
def COLOR_RANGES : List (String × List HSVRange) :=
  [("vermelho", [⟨0, 10, 70, 255, 50, 255⟩, ⟨170, 180, 70, 255, 50, 255⟩]),
   ("laranja", [⟨10, 25, 70, 255, 50, 255⟩]),
   ("amarelo", [⟨25, 35, 70, 255, 50, 255⟩]),
   ("verde", [⟨35, 85, 70, 255, 50, 255⟩]),
   ("azul", [⟨85, 130, 70, 255, 50, 255⟩]),
   ("roxo", [⟨130, 160, 70, 255, 50, 255⟩]),
   ("rosa", [⟨160, 170, 70, 255, 50, 255⟩]),
   ("branco", [⟨0, 180, 0, 30, 200, 255⟩]),
   ("preto", [⟨0, 180, 0, 255, 0, 50⟩]),
   ("cinza", [⟨0, 180, 0, 30, 50, 200⟩]),
   ("prata", [⟨0, 180, 0, 40, 150, 220⟩])]

/-- Model of the external cv2.cvtColor BGR-to-HSV conversion for 8-bit images,
following the documented OpenCV formula (V = max channel, S = 255(V-min)/V,
hue halved into 0..180 with negative wrap), with round-half-up standing in for
OpenCV fixed-point rounding.  The per-pixel rounding detail is not load
bearing for any claim. -/
def bgr2hsv (p : BGR) : ℤ × ℤ × ℤ :=
  let v := max p.r (max p.g p.b)
  let m := min p.r (min p.g p.b)
  let d := v - m
  let s := if v = 0 then 0 else rnd ((255 * (d : ℚ)) / (v : ℚ))
  let hdeg : ℚ :=
    if d = 0 then 0
    else if v = p.r then 60 * ((p.g : ℚ) - (p.b : ℚ)) / (d : ℚ)
    else if v = p.g then 120 + 60 * ((p.b : ℚ) - (p.r : ℚ)) / (d : ℚ)
    else 240 + 60 * ((p.r : ℚ) - (p.g : ℚ)) / (d : ℚ)
  let hdeg2 := if hdeg < 0 then hdeg + 360 else hdeg
  (rnd (hdeg2 / 2), s, v)

/-- Inclusive-bounds membership of one HSV pixel in one band, the model of
cv2.inRange on a single pixel. -/
def hsvInRange (hsv : ℤ × ℤ × ℤ) (rg : HSVRange) : Bool :=
  decide (rg.hmin ≤ hsv.1 ∧ hsv.1 ≤ rg.hmax ∧ rg.smin ≤ hsv.2.1 ∧ hsv.2.1 ≤ rg.smax
    ∧ rg.vmin ≤ hsv.2.2 ∧ hsv.2.2 ≤ rg.vmax)

/-- A pixel matches a color iff it lies in any of its bands: the bitwise_or of
the per-band masks of the source. -/
def matchesColor (ranges : List HSVRange) (hsv : ℤ × ℤ × ℤ) : Bool :=
  ranges.any (hsvInRange hsv)

/-- Matching-pixel count of one color inside the h-by-w window of the frame
whose top-left corner is (y0, x0): np.sum(mask > 0) of the source. -/
def colorCount (f : Frame) (y0 x0 h w : Nat) (ranges : List HSVRange) : Nat :=
  ((List.range h).map (fun i =>
    ((List.range w).filter (fun j =>
      matchesColor ranges (bgr2hsv (f.px (y0 + i) (x0 + j))))).length)).sum

/-- The region-selection prefix of ColorClassifier.classify: clip the bbox to
frame bounds, returning none on a degenerate clipped box (the indefinido
path), then crop to the central sub-region with int(h*0.2) vertical and
int(w*0.15) horizontal margins, falling back to the whole clipped region
when the central crop is empty.  Returns top row, left column, height, width
of the analyzed region. -/
def roiRegion (f : Frame) (bbox : ℚ × ℚ × ℚ × ℚ) : Option (Nat × Nat × Nat × Nat) :=
  let x1 := max 0 (pyInt bbox.1)
  let y1 := max 0 (pyInt bbox.2.1)
  let x2 := min (f.cols : ℤ) (pyInt bbox.2.2.1)
  let y2 := min (f.rows : ℤ) (pyInt bbox.2.2.2)
  if x2 ≤ x1 ∨ y2 ≤ y1 then none
  else
    let h := (y2 - y1).toNat
    let w := (x2 - x1).toNat
    if h * w = 0 then none
    else
      let margin_h := (pyInt ((h : ℚ) * (2 / 10))).toNat
      let margin_w := (pyInt ((w : ℚ) * (15 / 100))).toNat
      let ch := h - 2 * margin_h
      let cw := w - 2 * margin_w
      if ch * cw = 0 then some (y1.toNat, x1.toNat, h, w)
      else some (y1.toNat + margin_h, x1.toNat + margin_w, ch, cw)

/-- Python max(items, key) and Counter.most_common tie behavior: fold keeping
the current best and replacing it only on a strictly larger key, so the
earliest maximal element wins. -/
def pickBest {α : Type} (f : α → Nat) : List α → Option α
  | [] => none
  | x :: rest => some (rest.foldl (fun b y => if f b < f y then y else b) x)

/-- Embeds ColorClassifier.classify: select the analyzed region, count
matching pixels per label in COLOR_RANGES order, take the first maximal
label, and accept it only when its count strictly exceeds 10 percent of the
pixels of the analyzed region. -/
def classify (f : Frame) (bbox : ℚ × ℚ × ℚ × ℚ) : String :=
  match roiRegion f bbox with
  | none => "indefinido"
  | some (y0, x0, h, w) =>
    let total := h * w
    let counts := COLOR_RANGES.map (fun c => (c.1, colorCount f y0 x0 h w c.2))
    match pickBest (fun c => c.2) counts with
    | none => "indefinido"
    | some best => if (total : ℚ) * (1 / 10) < (best.2 : ℚ) then best.1 else "indefinido"

/-- The mutable attribute of a ColorClassifier instance: the per-track color
vote history. -/
structure ClassifierState where
  color_history : List (ℤ × List String)

/-- The distinct labels of a window ordered by first occurrence: the
iteration order of the keys of a Python Counter built from the window. -/
def firstKeys : List String → List String
  | [] => []
  | x :: rest => x :: (firstKeys rest).filter (fun y => y ≠ x)

/-- counter.most_common(1)[0][0]: the earliest-first-occurrence label among
those of maximal count.  The window is never empty at the call site, so the
value on the empty list is arbitrary. -/
def mostCommon1 (l : List String) : String :=
  match pickBest (fun s => l.count s) (firstKeys l) with
  | some r => r
  | none => "indefinido"

/-- The window-maintenance step of classify_with_smoothing: append the
current classification to the track window and keep only the last 10
entries (FIFO eviction). -/
def smoothWindow (st : ClassifierState) (track_id : ℤ) (current_color : String) :
    List String :=
  let hist0 := (alookup st.color_history track_id).getD []
  let hist1 := hist0 ++ [current_color]
  if 10 < hist1.length then hist1.drop (hist1.length - 10) else hist1

/-- Embeds ColorClassifier.classify_with_smoothing: classify the current
frame, append to the track window capped at the last 10 entries, and return
the most common label of the window. -/
def classify_with_smoothing (st : ClassifierState) (track_id : ℤ) (f : Frame)
    (bbox : ℚ × ℚ × ℚ × ℚ) : ClassifierState × String :=
  let current_color := classify f bbox
  let hist := smoothWindow st track_id current_color
  (⟨upsert track_id hist st.color_history⟩, mostCommon1 hist)

/-- A uniform 1-by-1 pure blue frame (BGR 255,0,0). -/
def blueFrame : Frame := ⟨1, 1, fun _ _ => ⟨255, 0, 0⟩⟩

/-- A uniform 1-by-1 pure red frame (BGR 0,0,255). -/
def redFrame : Frame := ⟨1, 1, fun _ _ => ⟨0, 0, 255⟩⟩

theorem roiRegion_blue : roiRegion blueFrame (0, 0, 1, 1) = some (0, 0, 1, 1) := by
  norm_num [roiRegion, pyInt, blueFrame]

theorem bgr2hsv_blue : bgr2hsv (BGR.mk 255 0 0) = (120, 255, 255) := by
  norm_num [bgr2hsv, rnd]

theorem bgr2hsv_red : bgr2hsv (BGR.mk 0 0 255) = (0, 255, 255) := by
  norm_num [bgr2hsv, rnd]

theorem classify_blue : classify blueFrame (0, 0, 1, 1) = "azul" := by
  simp only [classify, roiRegion_blue]
  norm_num [COLOR_RANGES, colorCount, List.range_succ, blueFrame, bgr2hsv_blue,
    matchesColor, hsvInRange, pickBest]

theorem classify_red : classify redFrame (0, 0, 1, 1) = "vermelho" := by
  have hroi : roiRegion redFrame (0, 0, 1, 1) = some (0, 0, 1, 1) := by
    norm_num [roiRegion, pyInt, redFrame]
  simp only [classify, hroi]
  norm_num [COLOR_RANGES, colorCount, List.range_succ, redFrame, bgr2hsv_red,
    matchesColor, hsvInRange, pickBest]

theorem foldl_pickBest_spec {α : Type} (f : α → Nat) :
    ∀ (l : List α) (b : α),
      f b ≤ f (l.foldl (fun b y => if f b < f y then y else b) b)
      ∧ (∀ y ∈ l, f y ≤ f (l.foldl (fun b y => if f b < f y then y else b) b))
      ∧ (l.foldl (fun b y => if f b < f y then y else b) b = b
         ∨ ∃ l1 l2, l = l1 ++ (l.foldl (fun b y => if f b < f y then y else b) b) :: l2
            ∧ f b < f (l.foldl (fun b y => if f b < f y then y else b) b)
            ∧ ∀ y ∈ l1, f y < f (l.foldl (fun b y => if f b < f y then y else b) b))
  | [], b => ⟨le_refl _, by simp, Or.inl rfl⟩
  | y :: rest, b => by
    have hstep : (y :: rest).foldl (fun b z => if f b < f z then z else b) b
        = rest.foldl (fun b z => if f b < f z then z else b) (if f b < f y then y else b) := by
      simp [List.foldl_cons]
    by_cases hlt : f b < f y
    · obtain ⟨ih1, ih2, ih3⟩ := foldl_pickBest_spec f rest y
      rw [hstep, if_pos hlt]
      refine ⟨le_of_lt (lt_of_lt_of_le hlt ih1), ?_, ?_⟩
      · intro z hz
        rcases List.mem_cons.mp hz with hz | hz
        · subst hz; exact ih1
        · exact ih2 z hz
      · rcases ih3 with heq | ⟨l1, l2, hdecomp, hflt, hall⟩
        · right
          refine ⟨[], rest, by rw [heq]; simp, by rw [heq]; exact hlt, by simp⟩
        · right
          refine ⟨y :: l1, l2, by rw [List.cons_append, ← hdecomp], lt_trans hlt hflt, ?_⟩
          intro z hz
          rcases List.mem_cons.mp hz with hz | hz
          · subst hz; exact hflt
          · exact hall z hz
    · obtain ⟨ih1, ih2, ih3⟩ := foldl_pickBest_spec f rest b
      rw [hstep, if_neg hlt]
      refine ⟨ih1, ?_, ?_⟩
      · intro z hz
        rcases List.mem_cons.mp hz with hz | hz
        · subst hz; exact le_trans (Nat.le_of_not_lt hlt) ih1
        · exact ih2 z hz
      · rcases ih3 with heq | ⟨l1, l2, hdecomp, hflt, hall⟩
        · exact Or.inl heq
        · right
          refine ⟨y :: l1, l2, by rw [List.cons_append, ← hdecomp], hflt, ?_⟩
          intro z hz
          rcases List.mem_cons.mp hz with hz | hz
          · subst hz; exact lt_of_le_of_lt (Nat.le_of_not_lt hlt) hflt
          · exact hall z hz

theorem pickBest_eq_none {α : Type} (f : α → Nat) (l : List α) :
    pickBest f l = none ↔ l = [] := by
  cases l <;> simp [pickBest]

theorem pickBest_spec {α : Type} (f : α → Nat) (l : List α) (r : α)
    (h : pickBest f l = some r) :
    r ∈ l ∧ (∀ y ∈ l, f y ≤ f r)
    ∧ ∃ l1 l2, l = l1 ++ r :: l2 ∧ ∀ y ∈ l1, f y < f r := by
  cases l with
  | nil => simp [pickBest] at h
  | cons x rest =>
    obtain ⟨h1, h2, h3⟩ := foldl_pickBest_spec f rest x
    have hr : rest.foldl (fun b y => if f b < f y then y else b) x = r := by
      simpa [pickBest] using h
    rw [hr] at h1 h2 h3
    refine ⟨?_, ?_, ?_⟩
    · rcases h3 with heq | ⟨l1, l2, hd, _, _⟩
      · rw [← heq]; exact List.mem_cons_self _ _
      · exact List.mem_cons_of_mem _ (by rw [hd]; simp)
    · intro y hy
      rcases List.mem_cons.mp hy with hy | hy
      · subst hy; exact h1
      · exact h2 y hy
    · rcases h3 with heq | ⟨l1, l2, hd, hlt, hall⟩
      · exact ⟨[], rest, by rw [← heq]; simp, by simp⟩
      · refine ⟨x :: l1, l2, by rw [List.cons_append, ← hd], ?_⟩
        intro y hy
        rcases List.mem_cons.mp hy with hy | hy
        · subst hy; exact hlt
        · exact hall y hy

theorem mem_firstKeys : ∀ (l : List String) (a : String), a ∈ firstKeys l ↔ a ∈ l
  | [], a => by simp [firstKeys]
  | x :: rest, a => by
    simp only [firstKeys, List.mem_cons, List.mem_filter, decide_eq_true_eq]
    constructor
    · rintro (rfl | ⟨hmem, _⟩)
      · exact Or.inl rfl
      · exact Or.inr ((mem_firstKeys rest a).mp hmem)
    · rintro (rfl | hmem)
      · exact Or.inl rfl
      · by_cases hax : a = x
        · exact Or.inl hax
        · exact Or.inr ⟨(mem_firstKeys rest a).mpr hmem, hax⟩

theorem firstKeys_pairwise_indexOf :
    ∀ l : List String,
      List.Pairwise (fun a b => l.indexOf a < l.indexOf b) (firstKeys l)
  | [] => by simp [firstKeys]
  | x :: rest => by
    simp only [firstKeys]
    refine List.Pairwise.cons ?_ ?_
    · intro b hb
      have hb1 := List.mem_filter.mp hb
      have hbne : b ≠ x := by simpa using hb1.2
      rw [List.indexOf_cons_self, List.indexOf_cons_ne _ (Ne.symm hbne)]
      exact Nat.succ_pos _
    · have ih := firstKeys_pairwise_indexOf rest
      have hfilter := ih.filter (fun y => decide (y ≠ x))
      refine List.Pairwise.imp_of_mem ?_ hfilter
      intro a b ha hb hab
      have hane : a ≠ x := by simpa using (List.mem_filter.mp ha).2
      have hbne : b ≠ x := by simpa using (List.mem_filter.mp hb).2
      rw [List.indexOf_cons_ne _ (Ne.symm hane), List.indexOf_cons_ne _ (Ne.symm hbne)]
      exact Nat.succ_lt_succ hab

theorem mostCommon1_spec (l : List String) (hne : l ≠ []) :
    mostCommon1 l ∈ l
    ∧ (∀ y ∈ l, l.count y ≤ l.count (mostCommon1 l))
    ∧ ∃ l1 l2, firstKeys l = l1 ++ mostCommon1 l :: l2
        ∧ ∀ y ∈ l1, l.count y < l.count (mostCommon1 l) := by
  have hfkne : firstKeys l ≠ [] := by
    cases l with
    | nil => exact absurd rfl hne
    | cons x rest => simp [firstKeys]
  cases hpb : pickBest (fun s => l.count s) (firstKeys l) with
  | none => exact absurd ((pickBest_eq_none _ _).mp hpb) hfkne
  | some r =>
    have hmc : mostCommon1 l = r := by
      rw [mostCommon1, hpb]
    obtain ⟨hmem, hmax, l1, l2, hd, hall⟩ := pickBest_spec _ _ _ hpb
    rw [hmc]
    refine ⟨(mem_firstKeys l r).mp hmem, ?_, l1, l2, hd, hall⟩
    intro y hy
    exact hmax y ((mem_firstKeys l y).mpr hy)

theorem smoothWindow_ne_nil (st : ClassifierState) (track_id : ℤ) (c : String) :
    smoothWindow st track_id c ≠ [] := by
  simp only [smoothWindow]
  split_ifs with h
  · intro hcontra
    have hlen := congrArg List.length hcontra
    simp only [List.length_drop, List.length_nil] at hlen
    omega
  · simp

theorem smoothWindow_length_le (st : ClassifierState) (track_id : ℤ) (c : String) :
    (smoothWindow st track_id c).length ≤ 10 := by
  simp only [smoothWindow]
  split_ifs with h
  · simp only [List.length_drop]
    omega
  · omega

/-- C6 (amended): classify_with_smoothing appends the single-frame
classification to the rolling window of the track capped at 10 with FIFO
eviction, and returns a most frequent label of that window; ties are broken
by the earliest first occurrence in the window scan order (the iteration
order of the Python counter), not by most-recently-inserted-first. -/
theorem C6_color_smoothing (st : ClassifierState) (track_id : ℤ) (f : Frame)
    (bbox : ℚ × ℚ × ℚ × ℚ) :
    (classify_with_smoothing st track_id f bbox).1.color_history
        = upsert track_id (smoothWindow st track_id (classify f bbox)) st.color_history
    ∧ (classify_with_smoothing st track_id f bbox).2
        = mostCommon1 (smoothWindow st track_id (classify f bbox))
    ∧ (smoothWindow st track_id (classify f bbox)).length ≤ 10
    ∧ (classify_with_smoothing st track_id f bbox).2
        ∈ smoothWindow st track_id (classify f bbox)
    ∧ (∀ y ∈ smoothWindow st track_id (classify f bbox),
        (smoothWindow st track_id (classify f bbox)).count y
          ≤ (smoothWindow st track_id (classify f bbox)).count
              (classify_with_smoothing st track_id f bbox).2)
    ∧ (∃ l1 l2,
        firstKeys (smoothWindow st track_id (classify f bbox))
          = l1 ++ (classify_with_smoothing st track_id f bbox).2 :: l2
        ∧ ∀ y ∈ l1,
            (smoothWindow st track_id (classify f bbox)).count y
              < (smoothWindow st track_id (classify f bbox)).count
                  (classify_with_smoothing st track_id f bbox).2)
    ∧ List.Pairwise
        (fun a b => (smoothWindow st track_id (classify f bbox)).indexOf a
          < (smoothWindow st track_id (classify f bbox)).indexOf b)
        (firstKeys (smoothWindow st track_id (classify f bbox))) := by
  have hne := smoothWindow_ne_nil st track_id (classify f bbox)
  obtain ⟨hmem, hmax, hdec⟩ := mostCommon1_spec _ hne
  exact ⟨rfl, rfl, smoothWindow_length_le st track_id (classify f bbox), hmem, hmax,
    hdec, firstKeys_pairwise_indexOf _⟩

/-- Modelled from the spec: the window mode with ties broken by the
most-recently-inserted-first scan order, as the spec words the
ColorVoteHistory invariant; defined only for comparison with the source
behavior captured by mostCommon1. -/
def mostCommonRecentFirst (l : List String) : String :=
  match pickBest (fun s => l.count s) (firstKeys l.reverse) with
  | some r => r
  | none => "indefinido"

/-- Counterexample for the tie-break clause of C6: feeding azul then vermelho
produces the tied window [azul, vermelho]; the code returns azul (the label
whose first occurrence is earliest), while the most-recently-inserted-first
rule of the claim picks vermelho. -/
theorem C6_tiebreak_counterexample :
    (classify_with_smoothing
        (classify_with_smoothing ⟨[]⟩ 7 blueFrame (0, 0, 1, 1)).1
        7 redFrame (0, 0, 1, 1)).2 = "azul"
    ∧ mostCommonRecentFirst ["azul", "vermelho"] = "vermelho"
    ∧ ("azul" : String) ≠ "vermelho" := by
  refine ⟨?_, by decide, by decide⟩
  simp only [classify_with_smoothing, classify_blue, classify_red]
  decide

/-- Witness for C6 at the two examples of the spec: ten identical azul votes
yield azul, and a window of six azul then four vermelho yields azul. -/
theorem C6_color_smoothing_witness :
    (classify_with_smoothing ⟨[(7, List.replicate 9 "azul")]⟩ 7 blueFrame
        (0, 0, 1, 1)).2 = "azul"
    ∧ (classify_with_smoothing
        ⟨[(7, ["azul", "azul", "azul", "azul", "azul", "azul", "vermelho",
               "vermelho", "vermelho"])]⟩ 7 redFrame (0, 0, 1, 1)).2 = "azul" := by
  constructor
  · have h := (C6_color_smoothing ⟨[(7, List.replicate 9 "azul")]⟩ 7 blueFrame
      (0, 0, 1, 1)).2.1
    rw [h, classify_blue]
    decide
  · have h := (C6_color_smoothing
      ⟨[(7, ["azul", "azul", "azul", "azul", "azul", "azul", "vermelho",
             "vermelho", "vermelho"])]⟩ 7 redFrame (0, 0, 1, 1)).2.1
    rw [h, classify_red]
    decide

/-- C8: classify is total and degrades safely: a degenerate clipped bbox
yields indefinido; any result is either indefinido or one of the 11 taxonomy
labels; and a non-indefinido result is a label of maximal matching-pixel
count whose count strictly exceeds 10 percent of the pixels of the analyzed
region. -/
theorem C8_classify_total (f : Frame) (bbox : ℚ × ℚ × ℚ × ℚ) :
    (min (f.cols : ℤ) (pyInt bbox.2.2.1) ≤ max 0 (pyInt bbox.1)
        ∨ min (f.rows : ℤ) (pyInt bbox.2.2.2) ≤ max 0 (pyInt bbox.2.1)
      → classify f bbox = "indefinido")
    ∧ (classify f bbox = "indefinido" ∨ classify f bbox ∈ COLOR_RANGES.map Prod.fst)
    ∧ (classify f bbox ≠ "indefinido" →
        ∃ y0 x0 h w ranges, roiRegion f bbox = some (y0, x0, h, w)
          ∧ (classify f bbox, ranges) ∈ COLOR_RANGES
          ∧ (∀ p ∈ COLOR_RANGES,
              colorCount f y0 x0 h w p.2 ≤ colorCount f y0 x0 h w ranges)
          ∧ (((h * w : Nat) : ℚ) * (1 / 10) < (colorCount f y0 x0 h w ranges : ℚ))) := by
  refine ⟨?_, ?_⟩
  · intro hdeg
    have hroi : roiRegion f bbox = none := by
      simp only [roiRegion]
      rw [if_pos hdeg]
    simp [classify, hroi]
  · cases hroi : roiRegion f bbox with
    | none =>
      refine ⟨Or.inl (by simp [classify, hroi]), ?_⟩
      intro hne
      exact absurd (by simp [classify, hroi]) hne
    | some reg =>
      obtain ⟨y0, x0, h, w⟩ := reg
      cases hpb : pickBest (fun c => c.2)
          (COLOR_RANGES.map (fun c => (c.1, colorCount f y0 x0 h w c.2))) with
      | none =>
        have hmapnil : COLOR_RANGES.map (fun c => (c.1, colorCount f y0 x0 h w c.2)) = [] :=
          (pickBest_eq_none _ _).mp hpb
        simp [COLOR_RANGES] at hmapnil
      | some best =>
        have hcl : classify f bbox
            = if ((h * w : Nat) : ℚ) * (1 / 10) < (best.2 : ℚ) then best.1
              else "indefinido" := by
          simp only [classify, hroi, hpb]
        obtain ⟨hmem, hmax, _⟩ := pickBest_spec _ _ _ hpb
        obtain ⟨c, hcmem, hceq⟩ := List.mem_map.mp hmem
        by_cases hcond : ((h * w : Nat) : ℚ) * (1 / 10) < (best.2 : ℚ)
        · rw [if_pos hcond] at hcl
          constructor
          · right
            rw [hcl, ← hceq]
            exact List.mem_map_of_mem Prod.fst hcmem
          · intro _
            refine ⟨y0, x0, h, w, c.2, rfl, ?_, ?_, ?_⟩
            · rw [hcl, ← hceq]
              simpa using hcmem
            · intro p hp
              have hle := hmax (p.1, colorCount f y0 x0 h w p.2)
                (List.mem_map_of_mem _ hp)
              rw [← hceq] at hle
              simpa using hle
            · rw [← hceq] at hcond
              simpa using hcond
        · rw [if_neg hcond] at hcl
          exact ⟨Or.inl hcl, fun hne => absurd hcl hne⟩

/-- Witness for C8: a zero-area bbox on the 1-by-1 blue frame degrades to
indefinido, and the full-frame bbox returns one of the taxonomy labels. -/
theorem C8_classify_total_witness :
    classify blueFrame (0, 0, 0, 0) = "indefinido"
    ∧ classify blueFrame (0, 0, 1, 1) ∈ COLOR_RANGES.map Prod.fst := by
  constructor
  · exact (C8_classify_total blueFrame (0, 0, 0, 0)).1
      (by norm_num [blueFrame, pyInt])
  · exact ((C8_classify_total blueFrame (0, 0, 1, 1)).2.1).resolve_left
      (by rw [classify_blue]; decide)

theorem alookup_upsert_self {κ α : Type} [DecidableEq κ] (k : κ) (v : α) :
    ∀ m : List (κ × α), alookup (upsert k v m) k = some v
  | [] => by simp [upsert, alookup]
  | (k2, v2) :: rest => by
    by_cases hk : k2 = k
    · simp [upsert, hk, alookup]
    · simp [upsert, hk, alookup, alookup_upsert_self k v rest]

/-- Embeds the VehicleMetrics dataclass of src/src/analytics.py.  Positions
are (x, y, timestamp) triples over the reals, speeds in km/h. -/
structure VehicleMetrics where
  track_id : ℤ
  entry_time : ℝ
  exit_time : ℝ
  entry_position : ℝ × ℝ
  exit_position : ℝ × ℝ
  positions : List (ℝ × ℝ × ℝ)
  color : String
  vehicle_type : String
  speed_estimates : List ℝ
  direction : String
  counted : Bool

/-- An alert dict of src/src/analytics.py.  The message field is
presentation-only float formatting and is not modelled. -/
structure Alert where
  type : String
  track_id : ℤ
  timestamp : ℝ
  severity : String

/-- The mutable attributes of an AdvancedAnalytics instance.  Wall-clock
reads (time.time()) are modelled as explicit arguments: start_time at
construction and the alert timestamp at vehicle_exited. -/
structure AnalyticsState where
  fps : ℤ
  pixels_per_meter : ℝ
  vehicles : List (ℤ × VehicleMetrics)
  total_vehicles : Nat
  vehicles_in_scene : ℤ
  flow_per_minute : List (ℝ × Nat)
  speed_history : List ℝ
  dwell_times : List ℝ
  density_history : List (ℝ × Nat)
  alerts : List Alert
  hourly_flow : List (ℤ × Nat)
  start_time : ℝ

/-- The last two elements of a list: (positions[-2], positions[-1]). -/
def lastTwo {α : Type} (l : List α) : Option (α × α) :=
  match l.reverse with
  | a :: b :: _ => some (b, a)
  | _ => none

theorem lastTwo_eq_none_iff {α : Type} (l : List α) :
    lastTwo l = none ↔ l.length < 2 := by
  have hlen : l.length = l.reverse.length := (List.length_reverse l).symm
  rcases hr : l.reverse with _ | ⟨a, _ | ⟨b, t⟩⟩ <;>
    rw [hr] at hlen <;> simp [lastTwo, hr, hlen]

/-- np.mean over the reals: sum divided by length. -/
noncomputable def meanR (l : List ℝ) : ℝ := l.sum / (l.length : ℝ)

namespace AdvancedAnalytics

/-- Embeds AdvancedAnalytics.__init__ with the wall-clock read passed in. -/
def init (fps : ℤ) (pixels_per_meter : ℝ) (wall : ℝ) : AnalyticsState :=
  { fps := fps, pixels_per_meter := pixels_per_meter, vehicles := [],
    total_vehicles := 0, vehicles_in_scene := 0, flow_per_minute := [],
    speed_history := [], dwell_times := [], density_history := [], alerts := [],
    hourly_flow := [], start_time := wall }

/-- Embeds AdvancedAnalytics._calculate_speed: km/h between two (x, y, t)
samples; 0 on a non-positive time delta; Euclidean pixel distance over
pixels_per_meter and the delta, times 3.6, clamped to [0, 200]. -/
noncomputable def calculate_speed (ppm : ℝ) (pos1 pos2 : ℝ × ℝ × ℝ) : ℝ :=
  let dt := pos2.2.2 - pos1.2.2
  if dt ≤ 0 then 0
  else
    let distance_pixels := Real.sqrt ((pos2.1 - pos1.1) ^ 2 + (pos2.2.1 - pos1.2.1) ^ 2)
    let distance_meters := distance_pixels / ppm
    let speed_ms := distance_meters / dt
    let speed_kmh := speed_ms * 3.6
    min (max speed_kmh 0) 200

/-- A fresh VehicleMetrics as created on first sighting of a track. -/
def freshMetrics (track_id : ℤ) (timestamp : ℝ) (center : ℝ × ℝ) : VehicleMetrics :=
  { track_id := track_id, entry_time := timestamp, exit_time := 0,
    entry_position := center, exit_position := (0, 0), positions := [],
    color := "indefinido", vehicle_type := "car", speed_estimates := [],
    direction := "", counted := false }

/-- Python truthiness of an optional string argument: None and the empty
string are falsy, so only a non-empty provided string overwrites. -/
def truthy (o : Option String) : Bool :=
  match o with
  | some s => !(s == "")
  | none => false

/-- The metric revisions of update_vehicle before the speed step: append the
center position and overwrite color and vehicle type when truthy. -/
def reviseMetrics (v : VehicleMetrics) (center_x center_y timestamp : ℝ)
    (color vehicle_type : Option String) : VehicleMetrics :=
  let v1 := { v with positions := v.positions ++ [(center_x, center_y, timestamp)] }
  let v2 := if truthy color then { v1 with color := color.getD "" } else v1
  if truthy vehicle_type then { v2 with vehicle_type := vehicle_type.getD "" } else v2

/-- The speed step of update_vehicle: with at least two position samples,
compute the instantaneous speed of the last two; append it to the metric and
the global history only when strictly positive; always write the metric back. -/
noncomputable def applySpeed (st : AnalyticsState) (track_id : ℤ)
    (v : VehicleMetrics) : AnalyticsState :=
  if 2 ≤ v.positions.length then
    match lastTwo v.positions with
    | some (p1, p2) =>
      let speed := calculate_speed st.pixels_per_meter p1 p2
      if 0 < speed then
        let v4 := { v with speed_estimates := v.speed_estimates ++ [speed] }
        { st with
          vehicles := upsert track_id v4 st.vehicles
          speed_history := st.speed_history ++ [speed] }
      else { st with vehicles := upsert track_id v st.vehicles }
    | none => { st with vehicles := upsert track_id v st.vehicles }
  else { st with vehicles := upsert track_id v st.vehicles }

/-- Embeds AdvancedAnalytics.update_vehicle: create the metric on first
sighting (bumping total_vehicles and vehicles_in_scene), append the position,
overwrite color/type when truthy, then run the speed step. -/
noncomputable def update_vehicle (st : AnalyticsState) (track_id : ℤ)
    (bbox : ℝ × ℝ × ℝ × ℝ) (timestamp : ℝ)
    (color vehicle_type : Option String) : AnalyticsState :=
  let center_x := (bbox.1 + bbox.2.2.1) / 2
  let center_y := (bbox.2.1 + bbox.2.2.2) / 2
  let fresh := freshMetrics track_id timestamp (center_x, center_y)
  let st0 := if (alookup st.vehicles track_id).isSome then st
    else { st with
      vehicles := upsert track_id fresh st.vehicles
      total_vehicles := st.total_vehicles + 1
      vehicles_in_scene := st.vehicles_in_scene + 1 }
  let vehicle := (alookup st0.vehicles track_id).getD fresh
  applySpeed st0 track_id
    (reviseMetrics vehicle center_x center_y timestamp color vehicle_type)

/-- The finalization of a metric performed by vehicle_exited: set exit time,
direction, the counted flag, and the exit position from the last sample. -/
def finalizeMetrics (v : VehicleMetrics) (timestamp : ℝ) (direction : String) :
    VehicleMetrics :=
  let ep := match v.positions.getLast? with
    | some p => (p.1, p.2.1)
    | none => v.exit_position
  { v with
    exit_time := timestamp
    direction := direction
    counted := true
    exit_position := ep }

/-- Embeds AdvancedAnalytics._check_alerts as the list of alerts one call
appends: the long-dwell alert (source type PERMANENCIA_LONGA, the long_dwell
kind of the spec) when dwell_time exceeds 60 seconds, then the high-speed
alert (source type ALTA_VELOCIDADE, the high_speed kind) when the vehicle has
speed samples whose mean exceeds 80 km/h. -/
noncomputable def check_alerts (vehicle : VehicleMetrics) (dwell_time : ℝ)
    (wall : ℝ) : List Alert :=
  (if 60 < dwell_time then
    [{ type := "PERMANENCIA_LONGA", track_id := vehicle.track_id,
       timestamp := wall, severity := "warning" }]
  else [])
  ++
  (if vehicle.speed_estimates ≠ [] ∧ 80 < meanR vehicle.speed_estimates then
    [{ type := "ALTA_VELOCIDADE", track_id := vehicle.track_id,
       timestamp := wall, severity := "danger" }]
  else [])

/-- Embeds AdvancedAnalytics.vehicle_exited: a no-op for unknown tracks;
otherwise finalize the metric, append the dwell time, decrement
vehicles_in_scene floored at zero, and append the alerts of check_alerts. -/
noncomputable def vehicle_exited (st : AnalyticsState) (track_id : ℤ)
    (timestamp : ℝ) (direction : String) (wall : ℝ) : AnalyticsState :=
  match alookup st.vehicles track_id with
  | none => st
  | some vehicle =>
    let v1 := finalizeMetrics vehicle timestamp direction
    let dwell_time := timestamp - vehicle.entry_time
    { st with
      vehicles := upsert track_id v1 st.vehicles
      dwell_times := st.dwell_times ++ [dwell_time]
      vehicles_in_scene := max 0 (st.vehicles_in_scene - 1)
      alerts := st.alerts ++ check_alerts v1 dwell_time wall }

theorem vehicle_exited_some (st : AnalyticsState) (track_id : ℤ) (timestamp : ℝ)
    (direction : String) (wall : ℝ) (v : VehicleMetrics)
    (h : alookup st.vehicles track_id = some v) :
    vehicle_exited st track_id timestamp direction wall
      = { st with
          vehicles := upsert track_id (finalizeMetrics v timestamp direction) st.vehicles
          dwell_times := st.dwell_times ++ [timestamp - v.entry_time]
          vehicles_in_scene := max 0 (st.vehicles_in_scene - 1)
          alerts := st.alerts ++ check_alerts (finalizeMetrics v timestamp direction) (timestamp - v.entry_time) wall } := by
  simp only [vehicle_exited, h]

end AdvancedAnalytics

namespace AdvancedAnalytics

theorem applySpeed_spec (st : AnalyticsState) (track_id : ℤ) (v : VehicleMetrics) :
    ∃ v2, alookup (applySpeed st track_id v).vehicles track_id = some v2
    ∧ v2.positions = v.positions
    ∧ (lastTwo v.positions = none →
        v2.speed_estimates = v.speed_estimates
        ∧ (applySpeed st track_id v).speed_history = st.speed_history)
    ∧ (∀ p1 p2, lastTwo v.positions = some (p1, p2) →
        (0 < calculate_speed st.pixels_per_meter p1 p2 →
          v2.speed_estimates
            = v.speed_estimates ++ [calculate_speed st.pixels_per_meter p1 p2]
          ∧ (applySpeed st track_id v).speed_history
            = st.speed_history ++ [calculate_speed st.pixels_per_meter p1 p2])
        ∧ (¬ 0 < calculate_speed st.pixels_per_meter p1 p2 →
          v2.speed_estimates = v.speed_estimates
          ∧ (applySpeed st track_id v).speed_history = st.speed_history)) := by
  by_cases h2 : 2 ≤ v.positions.length
  · rcases hlt : lastTwo v.positions with _ | ⟨p1, p2⟩
    · have hcon := (lastTwo_eq_none_iff v.positions).mp hlt
      omega
    · have happ : applySpeed st track_id v
          = if 0 < calculate_speed st.pixels_per_meter p1 p2 then
              { st with
                vehicles := upsert track_id
                  { v with speed_estimates := v.speed_estimates
                      ++ [calculate_speed st.pixels_per_meter p1 p2] } st.vehicles
                speed_history := st.speed_history
                  ++ [calculate_speed st.pixels_per_meter p1 p2] }
            else { st with vehicles := upsert track_id v st.vehicles } := by
        simp only [applySpeed, if_pos h2, hlt]
      by_cases hs : 0 < calculate_speed st.pixels_per_meter p1 p2
      · rw [if_pos hs] at happ
        refine ⟨{ v with speed_estimates := v.speed_estimates
            ++ [calculate_speed st.pixels_per_meter p1 p2] },
          by rw [happ]; exact alookup_upsert_self _ _ _, rfl, ?_, ?_⟩
        · intro hnone
          exact Option.noConfusion hnone
        · intro q1 q2 hq
          obtain ⟨rfl, rfl⟩ : p1 = q1 ∧ p2 = q2 := by simpa using hq
          exact ⟨fun _ => ⟨rfl, by rw [happ]⟩, fun hns => absurd hs hns⟩
      · rw [if_neg hs] at happ
        refine ⟨v, by rw [happ]; exact alookup_upsert_self _ _ _, rfl, ?_, ?_⟩
        · intro hnone
          exact Option.noConfusion hnone
        · intro q1 q2 hq
          obtain ⟨rfl, rfl⟩ : p1 = q1 ∧ p2 = q2 := by simpa using hq
          exact ⟨fun hs2 => absurd hs2 hs, fun _ => ⟨rfl, by rw [happ]⟩⟩
  · have hlt : lastTwo v.positions = none := by
      rw [lastTwo_eq_none_iff]
      omega
    have happ : applySpeed st track_id v
        = { st with vehicles := upsert track_id v st.vehicles } := by
      simp only [applySpeed, if_neg h2]
    refine ⟨v, by rw [happ]; exact alookup_upsert_self _ _ _, rfl,
      fun _ => ⟨rfl, by rw [happ]⟩, ?_⟩
    intro p1 p2 hp
    rw [hlt] at hp
    exact Option.noConfusion hp

end AdvancedAnalytics

namespace AdvancedAnalytics

theorem reviseMetrics_positions (v : VehicleMetrics) (cx cy t : ℝ)
    (c vt : Option String) :
    (reviseMetrics v cx cy t c vt).positions = v.positions ++ [(cx, cy, t)] := by
  simp only [reviseMetrics]
  split_ifs <;> rfl

theorem reviseMetrics_speed_estimates (v : VehicleMetrics) (cx cy t : ℝ)
    (c vt : Option String) :
    (reviseMetrics v cx cy t c vt).speed_estimates = v.speed_estimates := by
  simp only [reviseMetrics]
  split_ifs <;> rfl

end AdvancedAnalytics

/-- C5: calculate_speed returns 0 on a non-positive time delta and otherwise
the clamped km/h formula (Euclidean pixel distance over pixels_per_meter and
the delta, times 3.6, clamped to [0, 200]); a displacement implying 500 km/h
is reported as exactly 200; and update_vehicle appends the instantaneous
speed of the last two samples to both the per-vehicle and the global history
exactly when it is strictly positive, leaving both untouched otherwise (in
particular on a non-positive delta, whose speed is 0). -/
theorem C5_speed_pipeline :
    (∀ (ppm : ℝ) (p1 p2 : ℝ × ℝ × ℝ), p2.2.2 - p1.2.2 ≤ 0 →
        AdvancedAnalytics.calculate_speed ppm p1 p2 = 0)
    ∧ (∀ (ppm : ℝ) (p1 p2 : ℝ × ℝ × ℝ), 0 < p2.2.2 - p1.2.2 →
        AdvancedAnalytics.calculate_speed ppm p1 p2
          = min (max (Real.sqrt ((p2.1 - p1.1) ^ 2 + (p2.2.1 - p1.2.1) ^ 2)
              / ppm / (p2.2.2 - p1.2.2) * 3.6) 0) 200)
    ∧ AdvancedAnalytics.calculate_speed 20 (0, 0, 0) (25000 / 9, 0, 1) = 200
    ∧ (∀ (st : AnalyticsState) (track_id : ℤ) (bbox : ℝ × ℝ × ℝ × ℝ)
        (timestamp : ℝ) (color vehicle_type : Option String),
        ∃ v2,
          alookup (AdvancedAnalytics.update_vehicle st track_id bbox timestamp
              color vehicle_type).vehicles track_id = some v2
          ∧ v2.positions
            = ((alookup st.vehicles track_id).getD
                (AdvancedAnalytics.freshMetrics track_id timestamp
                  ((bbox.1 + bbox.2.2.1) / 2, (bbox.2.1 + bbox.2.2.2) / 2))).positions
              ++ [((bbox.1 + bbox.2.2.1) / 2, (bbox.2.1 + bbox.2.2.2) / 2, timestamp)]
          ∧ (lastTwo v2.positions = none →
              v2.speed_estimates
                = ((alookup st.vehicles track_id).getD
                    (AdvancedAnalytics.freshMetrics track_id timestamp
                      ((bbox.1 + bbox.2.2.1) / 2,
                       (bbox.2.1 + bbox.2.2.2) / 2))).speed_estimates
              ∧ (AdvancedAnalytics.update_vehicle st track_id bbox timestamp
                  color vehicle_type).speed_history = st.speed_history)
          ∧ (∀ p1 p2, lastTwo v2.positions = some (p1, p2) →
              (0 < AdvancedAnalytics.calculate_speed st.pixels_per_meter p1 p2 →
                v2.speed_estimates
                  = ((alookup st.vehicles track_id).getD
                      (AdvancedAnalytics.freshMetrics track_id timestamp
                        ((bbox.1 + bbox.2.2.1) / 2,
                         (bbox.2.1 + bbox.2.2.2) / 2))).speed_estimates
                    ++ [AdvancedAnalytics.calculate_speed st.pixels_per_meter p1 p2]
                ∧ (AdvancedAnalytics.update_vehicle st track_id bbox timestamp
                    color vehicle_type).speed_history
                  = st.speed_history
                    ++ [AdvancedAnalytics.calculate_speed st.pixels_per_meter p1 p2])
              ∧ (¬ 0 < AdvancedAnalytics.calculate_speed st.pixels_per_meter p1 p2 →
                v2.speed_estimates
                  = ((alookup st.vehicles track_id).getD
                      (AdvancedAnalytics.freshMetrics track_id timestamp
                        ((bbox.1 + bbox.2.2.1) / 2,
                         (bbox.2.1 + bbox.2.2.2) / 2))).speed_estimates
                ∧ (AdvancedAnalytics.update_vehicle st track_id bbox timestamp
                    color vehicle_type).speed_history = st.speed_history))) := by
  have h0 : ∀ (ppm : ℝ) (p1 p2 : ℝ × ℝ × ℝ), p2.2.2 - p1.2.2 ≤ 0 →
      AdvancedAnalytics.calculate_speed ppm p1 p2 = 0 := by
    intro ppm p1 p2 hdt
    simp only [AdvancedAnalytics.calculate_speed]
    rw [if_pos hdt]
  have hpos : ∀ (ppm : ℝ) (p1 p2 : ℝ × ℝ × ℝ), 0 < p2.2.2 - p1.2.2 →
      AdvancedAnalytics.calculate_speed ppm p1 p2
        = min (max (Real.sqrt ((p2.1 - p1.1) ^ 2 + (p2.2.1 - p1.2.1) ^ 2)
            / ppm / (p2.2.2 - p1.2.2) * 3.6) 0) 200 := by
    intro ppm p1 p2 hdt
    simp only [AdvancedAnalytics.calculate_speed]
    rw [if_neg (not_le.mpr hdt)]
  refine ⟨h0, hpos, ?_, ?_⟩
  · rw [hpos 20 (0, 0, 0) (25000 / 9, 0, 1) (by norm_num)]
    dsimp only
    rw [show ((25000 / 9 : ℝ) - 0) ^ 2 + ((0 : ℝ) - 0) ^ 2 = ((25000 / 9 : ℝ)) ^ 2 by
      ring]
    rw [Real.sqrt_sq (by norm_num : (0 : ℝ) ≤ 25000 / 9)]
    rw [show (25000 / 9 : ℝ) / 20 / ((1 : ℝ) - 0) * 3.6 = 500 by norm_num]
    rw [max_eq_left (by norm_num : (0 : ℝ) ≤ 500),
      min_eq_right (by norm_num : (200 : ℝ) ≤ 500)]
  · intro st track_id bbox timestamp color vehicle_type
    simp only [AdvancedAnalytics.update_vehicle]
    split_ifs with hnew
    · obtain ⟨v2, hv2, hpos2, hnone2, hsome2⟩ :=
        AdvancedAnalytics.applySpeed_spec st track_id
          (AdvancedAnalytics.reviseMetrics
            ((alookup st.vehicles track_id).getD
              (AdvancedAnalytics.freshMetrics track_id timestamp
                ((bbox.1 + bbox.2.2.1) / 2, (bbox.2.1 + bbox.2.2.2) / 2)))
            ((bbox.1 + bbox.2.2.1) / 2) ((bbox.2.1 + bbox.2.2.2) / 2)
            timestamp color vehicle_type)
      rw [← hpos2] at hnone2 hsome2
      rw [AdvancedAnalytics.reviseMetrics_speed_estimates] at hnone2 hsome2
      rw [AdvancedAnalytics.reviseMetrics_positions] at hpos2
      exact ⟨v2, hv2, hpos2, hnone2, hsome2⟩
    · have halo : alookup st.vehicles track_id = none := by
        cases halo : alookup st.vehicles track_id with
        | none => rfl
        | some v => rw [halo] at hnew; simp at hnew
      simp only [alookup_upsert_self, Option.getD_some, halo, Option.getD_none]
      obtain ⟨v2, hv2, hpos2, hnone2, hsome2⟩ :=
        AdvancedAnalytics.applySpeed_spec
          { st with
            vehicles := upsert track_id
              (AdvancedAnalytics.freshMetrics track_id timestamp
                ((bbox.1 + bbox.2.2.1) / 2, (bbox.2.1 + bbox.2.2.2) / 2)) st.vehicles
            total_vehicles := st.total_vehicles + 1
            vehicles_in_scene := st.vehicles_in_scene + 1 }
          track_id
          (AdvancedAnalytics.reviseMetrics
            (AdvancedAnalytics.freshMetrics track_id timestamp
              ((bbox.1 + bbox.2.2.1) / 2, (bbox.2.1 + bbox.2.2.2) / 2))
            ((bbox.1 + bbox.2.2.1) / 2) ((bbox.2.1 + bbox.2.2.2) / 2)
            timestamp color vehicle_type)
      rw [← hpos2] at hnone2 hsome2
      rw [AdvancedAnalytics.reviseMetrics_speed_estimates] at hnone2 hsome2
      rw [AdvancedAnalytics.reviseMetrics_positions] at hpos2
      exact ⟨v2, hv2, hpos2, hnone2, hsome2⟩

/-- Witness for C5: a zero time delta yields speed 0; the 500 km/h
displacement is clamped to exactly 200; and a first-ever update leaves the
global speed history empty (only one sample, so no speed is computed). -/
theorem C5_speed_pipeline_witness :
    AdvancedAnalytics.calculate_speed 20 (0, 0, 0) (3, 4, 0) = 0
    ∧ AdvancedAnalytics.calculate_speed 20 (0, 0, 0) (25000 / 9, 0, 1) = 200
    ∧ (AdvancedAnalytics.update_vehicle (AdvancedAnalytics.init 30 20 0) 1
        (0, 0, 10, 10) 0 none none).speed_history = [] := by
  refine ⟨C5_speed_pipeline.1 20 (0, 0, 0) (3, 4, 0) (by norm_num),
    C5_speed_pipeline.2.2.1, ?_⟩
  obtain ⟨v2, hv2, hpos2, hnone2, hsome2⟩ :=
    C5_speed_pipeline.2.2.2 (AdvancedAnalytics.init 30 20 0) 1 (0, 0, 10, 10) 0
      none none
  have hlt : lastTwo v2.positions = none := by
    rw [hpos2]
    rfl
  exact ((hnone2 hlt).2).trans rfl

/-- C7: vehicle_exited on a known track appends exactly the alerts dictated
by the two independent rules: one PERMANENCIA_LONGA warning (the long_dwell
kind) iff the dwell time strictly exceeds 60 seconds, then one
ALTA_VELOCIDADE danger (the high_speed kind) iff the vehicle has speed
samples with mean strictly above 80 km/h. -/
theorem C7_alert_rules (st : AnalyticsState) (track_id : ℤ) (timestamp : ℝ)
    (direction : String) (wall : ℝ) (v : VehicleMetrics)
    (h : alookup st.vehicles track_id = some v) :
    (AdvancedAnalytics.vehicle_exited st track_id timestamp direction wall).alerts
      = st.alerts
        ++ (if 60 < timestamp - v.entry_time then
              [{ type := "PERMANENCIA_LONGA", track_id := v.track_id,
                 timestamp := wall, severity := "warning" : Alert }]
            else [])
        ++ (if v.speed_estimates ≠ [] ∧ 80 < meanR v.speed_estimates then
              [{ type := "ALTA_VELOCIDADE", track_id := v.track_id,
                 timestamp := wall, severity := "danger" : Alert }]
            else []) := by
  rw [AdvancedAnalytics.vehicle_exited_some st track_id timestamp direction wall v h]
  simp only [AdvancedAnalytics.check_alerts, AdvancedAnalytics.finalizeMetrics]
  rw [List.append_assoc]

/-- The vehicle metric used by the analytics witnesses: track 1 entered at
time 0 with a single position sample and no speed samples. -/
noncomputable def vmW : VehicleMetrics :=
  { track_id := 1
    entry_time := 0
    exit_time := 0
    entry_position := (5, 5)
    exit_position := (0, 0)
    positions := [(5, 5, 0)]
    color := "indefinido"
    vehicle_type := "car"
    speed_estimates := []
    direction := ""
    counted := false }

/-- A one-vehicle analytics state used by the analytics witnesses. -/
noncomputable def stW : AnalyticsState :=
  { fps := 30
    pixels_per_meter := 20
    vehicles := [(1, vmW)]
    total_vehicles := 1
    vehicles_in_scene := 1
    flow_per_minute := []
    speed_history := []
    dwell_times := []
    density_history := []
    alerts := []
    hourly_flow := []
    start_time := 0 }

/-- Witness for C7: with entry time 0, an exit at 61 appends exactly one
long-dwell warning, while an exit at 60 appends no alert at all. -/
theorem C7_alert_rules_witness :
    (AdvancedAnalytics.vehicle_exited stW 1 61 "entrada" 100).alerts
      = [{ type := "PERMANENCIA_LONGA", track_id := 1, timestamp := 100,
           severity := "warning" }]
    ∧ (AdvancedAnalytics.vehicle_exited stW 1 60 "entrada" 100).alerts = [] := by
  constructor
  · rw [C7_alert_rules stW 1 61 "entrada" 100 vmW rfl]
    simp only [vmW, stW]
    norm_num [meanR]
  · rw [C7_alert_rules stW 1 60 "entrada" 100 vmW rfl]
    simp only [vmW, stW]
    norm_num [meanR]

/-- C9: vehicle_exited with a track id that has no VehicleMetrics record is a
silent no-op: the entire state is returned unchanged. -/
theorem C9_exit_unknown_noop (st : AnalyticsState) (track_id : ℤ)
    (timestamp : ℝ) (direction : String) (wall : ℝ)
    (h : alookup st.vehicles track_id = none) :
    AdvancedAnalytics.vehicle_exited st track_id timestamp direction wall = st := by
  simp only [AdvancedAnalytics.vehicle_exited, h]

/-- Witness for C9: exiting an unknown track on a fresh engine returns the
state unchanged. -/
theorem C9_exit_unknown_noop_witness :
    AdvancedAnalytics.vehicle_exited (AdvancedAnalytics.init 30 20 0) 5 1
      "entrada" 0 = AdvancedAnalytics.init 30 20 0 :=
  C9_exit_unknown_noop (AdvancedAnalytics.init 30 20 0) 5 1 "entrada" 0 rfl

/-- C10: vehicle_exited enforces no finalize-once protocol: on any state in
which the track id is present - including one already finalized - a call
overwrites exit_time and direction, sets counted, appends one more dwell
entry, decrements vehicles_in_scene floored at 0, and re-evaluates both alert
rules, so repeated calls append duplicate alerts. -/
theorem C10_exit_not_idempotent (st : AnalyticsState) (track_id : ℤ)
    (timestamp : ℝ) (direction : String) (wall : ℝ) (v : VehicleMetrics)
    (h : alookup st.vehicles track_id = some v) :
    alookup (AdvancedAnalytics.vehicle_exited st track_id timestamp direction
        wall).vehicles track_id
      = some (AdvancedAnalytics.finalizeMetrics v timestamp direction)
    ∧ (AdvancedAnalytics.finalizeMetrics v timestamp direction).exit_time = timestamp
    ∧ (AdvancedAnalytics.finalizeMetrics v timestamp direction).direction = direction
    ∧ (AdvancedAnalytics.finalizeMetrics v timestamp direction).counted = true
    ∧ (AdvancedAnalytics.finalizeMetrics v timestamp direction).entry_time = v.entry_time
    ∧ (AdvancedAnalytics.finalizeMetrics v timestamp direction).speed_estimates
      = v.speed_estimates
    ∧ (AdvancedAnalytics.vehicle_exited st track_id timestamp direction
        wall).dwell_times = st.dwell_times ++ [timestamp - v.entry_time]
    ∧ (AdvancedAnalytics.vehicle_exited st track_id timestamp direction
        wall).vehicles_in_scene = max 0 (st.vehicles_in_scene - 1)
    ∧ (AdvancedAnalytics.vehicle_exited st track_id timestamp direction
        wall).alerts
      = st.alerts ++ AdvancedAnalytics.check_alerts
          (AdvancedAnalytics.finalizeMetrics v timestamp direction)
          (timestamp - v.entry_time) wall := by
  rw [AdvancedAnalytics.vehicle_exited_some st track_id timestamp direction wall v h]
  exact ⟨alookup_upsert_self _ _ _, rfl, rfl, rfl, rfl, rfl, rfl, rfl, rfl⟩

/-- Witness for C10: two consecutive vehicle_exited calls for the same track
with the same over-threshold dwell append two identical long-dwell alerts. -/
theorem C10_exit_not_idempotent_witness :
    (AdvancedAnalytics.vehicle_exited
        (AdvancedAnalytics.vehicle_exited stW 1 61 "entrada" 100)
        1 61 "entrada" 100).alerts
      = [{ type := "PERMANENCIA_LONGA", track_id := 1, timestamp := 100,
           severity := "warning" },
         { type := "PERMANENCIA_LONGA", track_id := 1, timestamp := 100,
           severity := "warning" }] := by
  obtain ⟨hv1, _, _, _, hentry1, hspeeds1, _, _, halerts1⟩ :=
    C10_exit_not_idempotent stW 1 61 "entrada" 100 vmW rfl
  obtain ⟨_, _, _, _, _, _, _, _, halerts2⟩ :=
    C10_exit_not_idempotent (AdvancedAnalytics.vehicle_exited stW 1 61 "entrada" 100)
      1 61 "entrada" 100 (AdvancedAnalytics.finalizeMetrics vmW 61 "entrada") hv1
  rw [halerts2, halerts1]
  simp only [AdvancedAnalytics.check_alerts, AdvancedAnalytics.finalizeMetrics, stW, vmW]
  norm_num
